import Mathlib

/-!
# Verification of the web3 DID / Verifiable-Credential core

Shallow embedding of the DID anchoring and credential issuance/verification
core of the `web3` command-line tool (Go), together with theorems checking
the natural-language specification against it.

Modelling conventions:

* Go strings are Lean `String`s; where the byte view matters (the 32-byte
  registry key, UTF-8 lengths) we go through an explicit UTF-8 encoder
  `utf8Bytes` on the underlying character list.
* Network collaborators (IPFS upload/fetch, chain calls) and cryptographic
  primitives (Keccak-256, secp256k1 sign/verify) are passed in as function
  arguments; the claims that involve them take the standard cryptographic
  assumptions as explicit hypotheses, exactly as the specification does.
* `log.Fatalf` calls, which abort the process before any further effect,
  are modelled by `Except.error`; functions that perform network calls on
  the success path also return the list of calls made, so that the theorems
  can state that an aborted run made none.
-/

/-! ## Identifier (the `did` package)

The `did` package (`did.Parse`, `did.DID.String`) is part of this repository
but its source is not in the provided tree; it is modelled from the spec
(section 4.1): parse `did:<method>:<id>` optionally followed by
`#<fragment>`, non-empty method, non-empty id over a safe charset, and
formatting is the exact inverse. -/

/-- A decentralized identifier, `did:<method>:<id>[#fragment]`.
An empty `fragment` means the fragment is absent, matching the Go struct
whose `Fragment` field is a plain string. -/
structure DID where
  method : List Char
  id : List Char
  fragment : List Char
deriving Repr, DecidableEq

/-- Modelled from the spec: safe charset for the method part (lowercase
alphanumeric, the conventional DID method charset). -/
def isMethodChar (c : Char) : Bool := (c.isLower && c.isAlpha) || c.isDigit

/-- Modelled from the spec: safe charset for the method-specific id
(alphanumeric plus limited punctuation). -/
def isIDChar (c : Char) : Bool := c.isAlphanum || c = '.' || c = '-' || c = '_'

/-- Split a character list at the first occurrence of `sep`, returning the
part before and the part after, or `none` if `sep` does not occur. -/
def splitAtChar (sep : Char) : List Char → Option (List Char × List Char)
  | [] => none
  | c :: rest =>
    if c = sep then some ([], rest)
    else
      match splitAtChar sep rest with
      | some (x, y) => some (c :: x, y)
      | none => none

/-- Modelled from the spec: parse the part after the `did:` scheme, split
into the base (before any `#`) and the fragment. -/
def parseBase (base : List Char) (frag : List Char) : Option DID :=
  match splitAtChar ':' base with
  | none => none
  | some (m, i) =>
    if !m.isEmpty && m.all isMethodChar && !i.isEmpty && i.all isIDChar
        && frag.all isIDChar then
      some ⟨m, i, frag⟩
    else none

/-- Modelled from the spec: parse the part after the `did:` scheme: split off
an optional non-empty `#fragment`, then the method and id. -/
def parseRest (rest : List Char) : Option DID :=
  match splitAtChar '#' rest with
  | some (b, f) => if f.isEmpty then none else parseBase b f
  | none => parseBase rest []

/-- Modelled from the spec: parser for `did:<method>:<id>[#fragment]` on the
character list of the input string. Fails on a missing `did:` scheme, a
missing method, an empty id, or charset violations. -/
def parseChars : List Char → Option DID
  | c1 :: c2 :: c3 :: c4 :: rest =>
    if c1 = 'd' ∧ c2 = 'i' ∧ c3 = 'd' ∧ c4 = ':' then parseRest rest else none
  | _ => none

/-- Modelled from the spec: `did.Parse`, the identifier parser. -/
def did.Parse (s : String) : Option DID := parseChars s.data

/-- Modelled from the spec: the character-level formatter inverse to
`parseChars`. -/
def formatChars (d : DID) : List Char :=
  'd' :: 'i' :: 'd' :: ':' :: d.method ++ ':' :: d.id
    ++ (if d.fragment.isEmpty then [] else '#' :: d.fragment)

/-- Modelled from the spec: `DID.String`, the identifier formatter. -/
def DID.string (d : DID) : String := String.mk (formatChars d)

/-! ## UTF-8 byte view of Go strings -/

/-- UTF-8 encoding of a single character (RFC 3629), as byte values. -/
def utf8EncodeChar (c : Char) : List Nat :=
  let n := c.toNat
  if n < 0x80 then [n]
  else if n < 0x800 then [0xC0 + n / 0x40, 0x80 + n % 0x40]
  else if n < 0x10000 then
    [0xE0 + n / 0x1000, 0x80 + n / 0x40 % 0x40, 0x80 + n % 0x40]
  else
    [0xF0 + n / 0x40000, 0x80 + n / 0x1000 % 0x40, 0x80 + n / 0x40 % 0x40,
      0x80 + n % 0x40]

/-- UTF-8 bytes of a character list. -/
def utf8Bytes : List Char → List Nat
  | [] => []
  | c :: cs => utf8EncodeChar c ++ utf8Bytes cs

/-- Byte length of a Go string (`len(s)` in Go is the UTF-8 byte count). -/
def goLen (s : String) : Nat := (utf8Bytes s.data).length

/-! ## Round-trip lemmas for the identifier -/

theorem splitAtChar_eq_some (sep : Char) :
    ∀ (l x y : List Char), splitAtChar sep l = some (x, y) →
      l = x ++ sep :: y ∧ sep ∉ x := by
  intro l
  induction l with
  | nil => intro x y h; simp [splitAtChar] at h
  | cons c rest ih =>
    intro x y h
    by_cases hc : c = sep
    · subst hc
      simp [splitAtChar] at h
      obtain ⟨hx, hy⟩ := h
      subst hx; subst hy
      simp
    · simp only [splitAtChar, if_neg hc] at h
      cases hrec : splitAtChar sep rest with
      | none => rw [hrec] at h; simp at h
      | some p =>
        obtain ⟨x0, y0⟩ := p
        rw [hrec] at h
        simp at h
        obtain ⟨hx, hy⟩ := h
        subst hy
        obtain ⟨hx0, hrest⟩ := ih x0 y0 hrec
        constructor
        · rw [← hx]; simp [hx0]
        · rw [← hx]
          intro hmem
          rcases List.mem_cons.mp hmem with h1 | h2
          · exact hc h1.symm
          · exact hrest h2

theorem parseBase_eq_some (base frag : List Char) (d : DID)
    (h : parseBase base frag = some d) :
    base = d.method ++ ':' :: d.id ∧ frag = d.fragment ∧ ':' ∉ d.method := by
  unfold parseBase at h
  cases hs : splitAtChar ':' base with
  | none => rw [hs] at h; simp at h
  | some p =>
    obtain ⟨m, i⟩ := p
    rw [hs] at h
    simp only at h
    by_cases hcond : !m.isEmpty && m.all isMethodChar && !i.isEmpty
        && i.all isIDChar && frag.all isIDChar
    · rw [if_pos hcond] at h
      have hd : d = ⟨m, i, frag⟩ := by
        cases h; rfl
      subst hd
      obtain ⟨hb, hm⟩ := splitAtChar_eq_some ':' base m i hs
      exact ⟨hb, rfl, hm⟩
    · rw [if_neg hcond] at h; simp at h

theorem parseRest_eq_some (rest : List Char) (d : DID)
    (h : parseRest rest = some d) :
    d.method ++ ':' :: d.id
      ++ (if d.fragment.isEmpty then [] else '#' :: d.fragment) = rest := by
  unfold parseRest at h
  cases hs : splitAtChar '#' rest with
  | none =>
    rw [hs] at h
    obtain ⟨hb, hf, _⟩ := parseBase_eq_some rest [] d h
    simp [← hf, hb]
  | some p =>
    obtain ⟨b, f⟩ := p
    rw [hs] at h
    simp only at h
    by_cases hfe : f.isEmpty
    · rw [if_pos hfe] at h; simp at h
    · rw [if_neg hfe] at h
      obtain ⟨hb, hf, _⟩ := parseBase_eq_some b f d h
      obtain ⟨hrest, _⟩ := splitAtChar_eq_some '#' rest b f hs
      rw [hrest, hb]
      simp [← hf, hfe]

/-- Core round-trip law at the character level: any successfully parsed
string is reproduced exactly by the formatter. -/
theorem formatChars_parseChars (s : List Char) (d : DID)
    (h : parseChars s = some d) : formatChars d = s := by
  match s with
  | [] => simp [parseChars] at h
  | [_] => simp [parseChars] at h
  | [_, _] => simp [parseChars] at h
  | [_, _, _] => simp [parseChars] at h
  | c1 :: c2 :: c3 :: c4 :: rest =>
    simp only [parseChars] at h
    by_cases hp : c1 = 'd' ∧ c2 = 'i' ∧ c3 = 'd' ∧ c4 = ':'
    · rw [if_pos hp] at h
      obtain ⟨h1, h2, h3, h4⟩ := hp
      subst h1; subst h2; subst h3; subst h4
      have := parseRest_eq_some rest d h
      simpa [formatChars, List.append_assoc, List.isEmpty_iff] using this
    · rw [if_neg hp] at h; simp at h

/-! ## Document model (`did/document.go`) -/

/-- ContextV1 is the required context for all DID documents
(`did/document.go`). -/
def ContextV1 : String := "https://w3id.org/did/v1"

/-- PublicKey represents a specification of a public key on the document
(`did/document.go`): id, type, controller, and six alternative key-encoding
fields of which one is populated based on the type. -/
structure PublicKey where
  id : String
  type : String
  controller : String
  publicKeyPEM : String := ""
  publicKeyJWK : String := ""
  publicKeyHex : String := ""
  publicKeyBase64 : String := ""
  publicKeyBase58 : String := ""
  publicKeyMultibase : String := ""
deriving Repr, DecidableEq

/-- Service represents a service endpoint specification
(`did/document.go`). -/
structure Service where
  id : String
  type : String
  serviceEndpoint : String
deriving Repr, DecidableEq

/-- Proof represents a JSON-LD proof of the integrity of a DID document
(`did/document.go`). -/
structure DocProof where
  type : String
  creator : String
  created : String
  domain : String
  nonce : String
  signatureValue : String
deriving Repr, DecidableEq

/-- Authentication entry: each element of `Document.Authentications` MUST be
a PublicKey (embedded) or a string (referenced), per `did/document.go`. -/
inductive AuthRef where
  | embedded (pk : PublicKey)
  | ref (s : String)
deriving Repr, DecidableEq

/-- Document represents a DID document (`did/document.go`). Timestamps are
modelled as nanosecond counts. -/
structure Document where
  context : String
  id : String := ""
  publicKeys : List PublicKey := []
  authentications : List AuthRef := []
  services : List Service := []
  created : Option Nat := none
  updated : Option Nat := none
  proof : Option DocProof := none
deriving Repr, DecidableEq

/-- NewDocument returns a new Document with the appropriate context
(`did/document.go`). -/
def NewDocument : Document := { context := ContextV1 }

/-! ## Hex encoding (gochain `common` package collaborators) -/

/-- Lowercase hex digit for a value below 16. -/
def hexDigit (n : Nat) : Char :=
  if n < 10 then Char.ofNat (48 + n) else Char.ofNat (87 + n)

/-- Hex encoding of a byte list with no prefix (gochain
`common.Bytes2Hex`). -/
def bytes2Hex (bs : List Nat) : String :=
  String.mk (bs.foldr (fun b acc => hexDigit (b / 16 % 16) :: hexDigit (b % 16) :: acc) [])

/-- Hex encoding with a `0x` prefix (gochain `common.ToHex`); encodes the
empty byte list as `0x0`, matching the collaborator. -/
def toHex (bs : List Nat) : String :=
  if bs.isEmpty then "0x0" else "0x" ++ bytes2Hex bs

/-- Value of a hex digit character, if it is one. -/
def hexVal (c : Char) : Option Nat :=
  if '0' ≤ c ∧ c ≤ '9' then some (c.toNat - 48)
  else if 'a' ≤ c ∧ c ≤ 'f' then some (c.toNat - 87)
  else if 'A' ≤ c ∧ c ≤ 'F' then some (c.toNat - 70)
  else none

/-- Decode pairs of hex digits into bytes, stopping at the first invalid
pair (gochain `common.Hex2Bytes` discards the decode error and keeps the
bytes decoded so far). -/
def hex2BytesChars : List Char → List Nat
  | c1 :: c2 :: rest =>
    match hexVal c1, hexVal c2 with
    | some h, some l => (16 * h + l) :: hex2BytesChars rest
    | _, _ => []
  | _ => []

/-- Gochain `common.Hex2Bytes` on a string. -/
def hex2Bytes (s : String) : List Nat := hex2BytesChars s.data

/-- Strip a leading `0x`, if present (`strings.TrimPrefix(s, "0x")`). -/
def trim0x (s : String) : String :=
  match s.data with
  | '0' :: 'x' :: rest => String.mk rest
  | _ => s

/-! ## The 32-byte registry key

Every registry operation computes `var idBytes32 [32]byte;
copy(idBytes32[:], d.ID)`: a zero-initialized 32-byte array receiving the
leading bytes of the method-specific id. -/

/-- Go semantics of `copy(idBytes32[:], s)` into a zero 32-byte array:
position `i` holds byte `i` of `s` when `i < len(s)`, else zero. -/
def goCopy32 (s : List Nat) : List Nat :=
  (List.range 32).map (fun i => if h : i < s.length then s.get ⟨i, h⟩ else 0)

/-- The registry key for a parsed identifier: its method-specific id as
UTF-8 bytes, copied into the zeroed 32-byte array. -/
def didKey32 (d : DID) : List Nat := goCopy32 (utf8Bytes d.id)

/-! ## CreateDID (`main.go`) -/

/-- MaxDIDLength is the maximum size of the idstring of the GoChain DID
(`main.go`). -/
def MaxDIDLength : Nat := 32

/-- Errors raised by the DID operations before any network effect; each
corresponds to a `log.Fatalf` in `main.go`, which aborts the process. -/
inductive CreateErr where
  | registryRequired
  | didRequired
  | parseFailed
  | wrongMethod
  | idTooLong
  | keyParseFailed
deriving Repr, DecidableEq

/-- Classification of `CreateErr` values under the specification error
taxonomy: missing required field, wrong method for registration, and an id
exceeding 32 bytes are ValidationError; a malformed identifier is
ParseError; a bad private key is neither. -/
def isValidationError : CreateErr → Bool
  | .registryRequired => true
  | .didRequired => true
  | .wrongMethod => true
  | .idTooLong => true
  | _ => false

/-- A network call issued by `CreateDID`, in order. -/
inductive NetCall where
  | upload (filename : String) (data : String)
  | registerTx (key : List Nat) (hash : String)
deriving Repr, DecidableEq

/-- Successful `CreateDID` outcome: the built document, the content hash
returned by the store, and the identifier registered. -/
structure CreateSuccess where
  doc : Document
  hash : String
  registeredID : DID
deriving Repr, DecidableEq

/-- The document-construction step of `CreateDID` (`main.go` lines
1496-1512): copy the identifier, set its fragment to `owner` for the key
id, and fill a fresh `NewDocument`. `pubKeyBytes` stands for
`crypto.FromECDSAPub(&publicKey)`. -/
def buildDIDDocument (d : DID) (pubKeyBytes : List Nat) (now : Nat) : Document :=
  let publicKeyID : DID := { d with fragment := "owner".data }
  { NewDocument with
    id := d.string
    created := some now
    updated := some now
    publicKeys := [{
      id := publicKeyID.string
      type := "Secp256k1VerificationKey2018"
      controller := d.string
      publicKeyHex := toHex pubKeyBytes }]
    authentications := [.ref publicKeyID.string] }

/-- CreateDID (`main.go`): validate the registry address, the DID string,
the method, and the length; then build the document, upload it, and
register the identifier. `keyOk` stands for `web3.ParsePrivateKey`
succeeding, `encodeDoc` for `json.MarshalIndent`, `upload` for
`IPFSUpload`. The first component lists the network calls issued; every
`log.Fatalf` path returns with an empty call list, since the process aborts
before reaching the store or the chain. -/
def CreateDID (registryAddress id : String) (keyOk : Bool)
    (pubKeyBytes : List Nat) (now : Nat) (encodeDoc : Document → String)
    (upload : String → String → String) :
    List NetCall × Except CreateErr CreateSuccess :=
  if registryAddress = "" then ([], .error .registryRequired)
  else if id = "" then ([], .error .didRequired)
  else
    match did.Parse id with
    | none => ([], .error .parseFailed)
    | some d =>
      if d.method ≠ "go".data then ([], .error .wrongMethod)
      else if MaxDIDLength < goLen id then ([], .error .idTooLong)
      else if ¬ keyOk then ([], .error .keyParseFailed)
      else
        let doc := buildDIDDocument d pubKeyBytes now
        let data := encodeDoc doc
        let hash := upload "did.json" data
        ([.upload "did.json" data, .registerTx (didKey32 d) hash],
          .ok ⟨doc, hash, d⟩)

/-! ## DIDOwner, DIDHash, readDIDDocument (`main.go`) -/

/-- DIDOwner (`main.go`): parse the identifier (any method), build the
32-byte key, and query the registry owner; returns the key queried and the
owner address. -/
def DIDOwner (registryAddress id : String)
    (ownerOf : List Nat → List Nat) :
    Except CreateErr (List Nat × List Nat) :=
  if registryAddress = "" then .error .registryRequired
  else
    match did.Parse id with
    | none => .error .parseFailed
    | some d => .ok (didKey32 d, ownerOf (didKey32 d))

/-- DIDHash (`main.go`): parse the identifier (any method), build the
32-byte key, and query the registry hash; returns the key queried and the
hash. -/
def DIDHash (registryAddress id : String)
    (hashOf : List Nat → String) :
    Except CreateErr (List Nat × String) :=
  if registryAddress = "" then .error .registryRequired
  else
    match did.Parse id with
    | none => .error .parseFailed
    | some d => .ok (didKey32 d, hashOf (didKey32 d))

/-- Errors of `readDIDDocument` (`main.go`). -/
inductive ResolveErr where
  | registryRequired
  | parseFailed
  | fetchFailed
  | decodeFailed
deriving Repr, DecidableEq

/-- readDIDDocument (`main.go`): parse the identifier, build the 32-byte
key, look the content hash up in the registry, fetch the bytes from the
store, and decode them into a Document. `hashOf` stands for the registry
`hash` call, `fetch` for the IPFS cat, `decodeDoc` for `json.Decode`.
Returns the key queried together with the hash and document. -/
def readDIDDocument (registryAddress id : String)
    (hashOf : List Nat → String) (fetch : String → Option String)
    (decodeDoc : String → Option Document) :
    Except ResolveErr (List Nat × String × Document) :=
  if registryAddress = "" then .error .registryRequired
  else
    match did.Parse id with
    | none => .error .parseFailed
    | some d =>
      let key := didKey32 d
      let hash := hashOf key
      match fetch hash with
      | none => .error .fetchFailed
      | some body =>
        match decodeDoc body with
        | none => .error .decodeFailed
        | some doc => .ok (key, hash, doc)

/-! ## Verifiable credentials (the `vc` package)

The `vc` package (`vc.VerifiableCredential`, `vc.Proof`,
`vc.NewVerifiableCredential`) is part of this repository but its source is
not in the provided tree; the data model below is modelled from the spec
(sections 3 and 6). -/

/-- A JSON value, as decoded from the credential subject data. Arrays and
objects are represented as constructor chains (`arrCons … arrNil`,
`objCons … objNil`), an isomorphic encoding of JSON lists that keeps every
function on values structurally recursive. -/
inductive Json where
  | null
  | bool (b : Bool)
  | num (n : Int)
  | str (s : String)
  | arrNil
  | arrCons (head : Json) (tail : Json)
  | objNil
  | objCons (key : String) (val : Json) (tail : Json)
deriving Repr, DecidableEq

/-- Modelled from the spec: the credential proof
`{type, created, proofValue (hex-encoded)}`. -/
structure VCProof where
  type : String
  created : Option Nat
  proofValue : String
deriving Repr, DecidableEq

/-- Modelled from the spec: a verifiable credential
`{id, type, issuer, issuanceDate, credentialSubject, proof}`. The subject
is a Go `map[string]interface{}`, modelled as an association list;
`none` models a nil map. -/
structure VerifiableCredential where
  id : String
  type : List String
  issuer : String
  issuanceDate : Option Nat
  credentialSubject : Option (List (String × Json))
  proof : Option VCProof
deriving Repr, DecidableEq

/-- Modelled from the spec: `vc.NewVerifiableCredential`, the empty
credential every issuance starts from. -/
def NewVerifiableCredential : VerifiableCredential :=
  ⟨"", [], "", none, none, none⟩

/-! ## Go map operations -/

/-- Go `m[k] = v`: set a key, overwriting any existing entry. -/
def mapSet (m : List (String × Json)) (k : String) (v : Json) :
    List (String × Json) :=
  (m.filter (fun e => e.1 ≠ k)) ++ [(k, v)]

/-- Go `m[k]` read: the value under a key, if present. -/
def mapGet (m : List (String × Json)) (k : String) : Option Json :=
  (m.find? (fun e => e.1 = k)).map Prod.snd

/-- Go `delete(m, k)`: remove a key. -/
def mapDel (m : List (String × Json)) (k : String) : List (String × Json) :=
  m.filter (fun e => e.1 ≠ k)

/-- Lexicographic order on character lists by code point; on the ASCII
strings involved this coincides with the byte order Go `sort.Strings`
uses. -/
def strLeb : List Char → List Char → Bool
  | [], _ => true
  | _ :: _, [] => false
  | x :: xs, y :: ys =>
    if x.toNat < y.toNat then true
    else if y.toNat < x.toNat then false
    else strLeb xs ys

/-- Go string comparison `a <= b`, byte-lexicographic. -/
def goStrLe (a b : String) : Bool := strLeb a.data b.data

/-! ## Canonical JSON serialization of a credential

Modelled from the spec (sections 4.6 and 6): the proof-less credential is
serialized to canonical JSON bytes with the stable field order
`id, type, issuer, issuanceDate, credentialSubject, proof`, Go map keys in
sorted order, and a trailing newline appended by `json.Encoder.Encode`.
Timestamps are rendered as their nanosecond count, an injective stand-in
for the RFC3339 rendering the collaborator uses. -/

/-- JSON string literal with escaped quote and backslash. -/
def encStr (s : String) : String :=
  "\"" ++ String.mk (s.data.foldr
    (fun c acc =>
      if c = '"' ∨ c = '\\' then '\\' :: c :: acc else c :: acc) []) ++ "\""

/-- Comma-joined list of already-encoded items. -/
def commaJoin : List String → String
  | [] => ""
  | [x] => x
  | x :: xs => x ++ "," ++ commaJoin xs

/-- Canonical encoding of a JSON value; object keys are emitted in the
order given (the credential encoder sorts its top-level keys first). The
`inTail` flag renders the continuation of an array or object chain,
emitting the separating comma and the closing bracket. -/
def encodeJson : Bool → Json → String
  | _, .null => "null"
  | _, .bool true => "true"
  | _, .bool false => "false"
  | _, .num n => toString n
  | _, .str s => encStr s
  | false, .arrNil => "[]"
  | true, .arrNil => "]"
  | false, .arrCons h t => "[" ++ encodeJson false h ++ encodeJson true t
  | true, .arrCons h t => "," ++ encodeJson false h ++ encodeJson true t
  | false, .objNil => "\x7b\x7d"
  | true, .objNil => "\x7d"
  | false, .objCons k v t =>
    "\x7b" ++ encStr k ++ ":" ++ encodeJson false v ++ encodeJson true t
  | true, .objCons k v t =>
    "," ++ encStr k ++ ":" ++ encodeJson false v ++ encodeJson true t

/-- Canonical encoding of the subject map: keys sorted, then each entry. -/
def encodeSubject (m : List (String × Json)) : String :=
  let ks := (m.map Prod.fst).insertionSort (fun a b => goStrLe a b = true)
  "\x7b" ++ commaJoin (ks.map
    (fun k => encStr k ++ ":" ++ encodeJson false ((mapGet m k).getD .null)))
    ++ "\x7d"

/-- Canonical encoding of an optional timestamp. -/
def encodeTime : Option Nat → String
  | none => "null"
  | some t => toString t

/-- Canonical encoding of a credential proof. -/
def encodeProof : Option VCProof → String
  | none => "null"
  | some p =>
    "\x7b\"type\":" ++ encStr p.type ++ ",\"created\":" ++ encodeTime p.created
      ++ ",\"proofValue\":" ++ encStr p.proofValue ++ "\x7d"

/-- Canonical JSON bytes of a credential, in the stable field order, with
the trailing newline `json.Encoder.Encode` appends. -/
def encodeVC (c : VerifiableCredential) : String :=
  "\x7b\"id\":" ++ encStr c.id
    ++ ",\"type\":[" ++ commaJoin (c.type.map encStr) ++ "]"
    ++ ",\"issuer\":" ++ encStr c.issuer
    ++ ",\"issuanceDate\":" ++ encodeTime c.issuanceDate
    ++ ",\"credentialSubject\":"
    ++ (match c.credentialSubject with
        | none => "null"
        | some m => encodeSubject m)
    ++ ",\"proof\":" ++ encodeProof c.proof
    ++ "\x7d\n"

/-! ## SignClaim (`main.go`) -/

/-- Go `time.Now().UTC().Truncate(1 * time.Second)` on a nanosecond
count: round down to a whole second. -/
def truncSec (t : Nat) : Nat := t - t % 1000000000

/-- Errors raised by `SignClaim` before producing a credential; each is a
`log.Fatalf` in `main.go`. -/
inductive SignErr where
  | idRequired
  | typeRequired
  | issuerRequired
  | issuerInvalid
  | subjectRequired
  | subjectInvalid
  | keyParseFailed
deriving Repr, DecidableEq

/-- The proof-less credential `SignClaim` assembles before hashing
(`main.go` lines 1662-1679): subject map with `id` overwritten by the
subject DID, issuance date truncated to the second, single type entry
appended to the fresh credential. -/
def signClaimBase (id typ issuerID subjectID : String)
    (subject : List (String × Json)) (nowNs : Nat) : VerifiableCredential :=
  { NewVerifiableCredential with
    id := id
    type := [typ]
    issuer := issuerID
    issuanceDate := some (truncSec nowNs)
    credentialSubject := some (mapSet subject "id" (.str subjectID)) }

/-- The Keccak-256 pre-image `SignClaim` hashes: the canonical JSON bytes
of the proof-less credential (`main.go` lines 1681-1685). -/
def signPreimage (id typ issuerID subjectID : String)
    (subject : List (String × Json)) (nowNs : Nat) : String :=
  encodeVC (signClaimBase id typ issuerID subjectID subject nowNs)

/-- The signed credential `SignClaim` outputs: the base credential with the
proof attached; the proof value is the recoverable signature over the
digest with its trailing recovery byte stripped, hex-encoded with no
prefix (`common.Bytes2Hex`), and the proof carries the same truncated
timestamp (`main.go` lines 1687-1703). -/
def signClaimCred (keccak : String → List Nat) (sign : List Nat → List Nat)
    (id typ issuerID subjectID : String) (subject : List (String × Json))
    (nowNs : Nat) : VerifiableCredential :=
  let base := signClaimBase id typ issuerID subjectID subject nowNs
  { base with
    proof := some {
      type := "Secp256k1VerificationKey2018"
      created := some (truncSec nowNs)
      proofValue :=
        bytes2Hex ((sign (keccak
          (signPreimage id typ issuerID subjectID subject nowNs))).dropLast) } }

/-- SignClaim (`main.go`): validate the metadata and the issuer/subject
identifiers, then build and sign the credential. `keccak` stands for
`sha3.NewLegacyKeccak256`, `sign` for `crypto.Sign` with the issuer key
(producing the 65-byte recoverable signature), `keyOk` for
`web3.ParsePrivateKey` succeeding, and `subject` for the already-decoded
subject JSON object. The function performs no network calls. -/
def SignClaim (keccak : String → List Nat) (sign : List Nat → List Nat)
    (keyOk : Bool) (id typ issuerID subjectID : String)
    (subject : List (String × Json)) (nowNs : Nat) :
    Except SignErr VerifiableCredential :=
  if id = "" then .error .idRequired
  else if typ = "" then .error .typeRequired
  else if issuerID = "" then .error .issuerRequired
  else
    match did.Parse issuerID with
    | none => .error .issuerInvalid
    | some _ =>
      if subjectID = "" then .error .subjectRequired
      else
        match did.Parse subjectID with
        | none => .error .subjectInvalid
        | some _ =>
          if ¬ keyOk then .error .keyParseFailed
          else .ok (signClaimCred keccak sign id typ issuerID subjectID
            subject nowNs)

/-! ## VerifyClaim (`main.go`) -/

/-- The Keccak-256 pre-image `VerifyClaim` hashes: the canonical JSON bytes
of the credential with its proof field cleared on a shallow copy
(`main.go` lines 1728-1734). -/
def verifyPreimage (cred : VerifiableCredential) : String :=
  encodeVC { cred with proof := none }

/-- Errors of `VerifyClaim`. `nilProofPanic` models the Go nil-pointer
dereference of `cred.Proof.ProofValue` that occurs when the credential has
no proof and the issuer document contains a Secp256k1 key. -/
inductive VerifyErr where
  | resolveFailed (e : ResolveErr)
  | notVerified
  | nilProofPanic
deriving Repr, DecidableEq

/-- The key-matching loop of `VerifyClaim` (`main.go` lines 1738-1751):
walk the issuer document keys in order, skip any key whose type is not
`Secp256k1VerificationKey2018`, and stop at the first candidate whose hex
key material verifies the proof value against the digest. -/
def verifyLoop (verifySig : List Nat → List Nat → List Nat → Bool)
    (h : List Nat) (proof : Option VCProof) : List PublicKey → Option Bool
  | [] => some false
  | pk :: rest =>
    if pk.type ≠ "Secp256k1VerificationKey2018" then
      verifyLoop verifySig h proof rest
    else
      match proof with
      | none => none
      | some p =>
        if verifySig (hex2Bytes (trim0x pk.publicKeyHex)) h
            (hex2Bytes p.proofValue) then some true
        else verifyLoop verifySig h proof rest

/-- What `VerifyClaim` prints on success: the subject id extracted from the
subject map, the remaining claims with their keys sorted, and the
credential metadata. -/
structure VerifyResult where
  subjectID : Option Json
  claimKeys : List String
  claims : List (String × Json)
  credID : String
  credType : List String
  issuer : String
  issuanceDate : Option Nat

/-- VerifyClaim (`main.go`): resolve the issuer document via
`readDIDDocument`, recompute the digest over the proof-less credential, try
every Secp256k1 key of the document, and on success report the subject
claims (id extracted, keys sorted) and metadata. `cred` stands for the
credential decoded from the input file. -/
def VerifyClaim (registryAddress : String) (hashOf : List Nat → String)
    (fetch : String → Option String) (decodeDoc : String → Option Document)
    (keccak : String → List Nat)
    (verifySig : List Nat → List Nat → List Nat → Bool)
    (cred : VerifiableCredential) : Except VerifyErr VerifyResult :=
  match readDIDDocument registryAddress cred.issuer hashOf fetch decodeDoc with
  | .error e => .error (.resolveFailed e)
  | .ok (_, _, doc) =>
    let h := keccak (verifyPreimage cred)
    match verifyLoop verifySig h cred.proof doc.publicKeys with
    | none => .error .nilProofPanic
    | some false => .error .notVerified
    | some true =>
      let subject := cred.credentialSubject.getD []
      let subjectID := mapGet subject "id"
      let claims := mapDel subject "id"
      .ok {
        subjectID := subjectID
        claimKeys := (claims.map Prod.fst).insertionSort
          (fun a b => goStrLe a b = true)
        claims := claims
        credID := cred.id
        credType := cred.type
        issuer := cred.issuer
        issuanceDate := cred.issuanceDate }

/-! ## Auxiliary lemmas -/

theorem utf8Bytes_append (a b : List Char) :
    utf8Bytes (a ++ b) = utf8Bytes a ++ utf8Bytes b := by
  induction a with
  | nil => rfl
  | cons c cs ih => simp [utf8Bytes, ih]

/-- Any parsed identifier came from a string at least five bytes longer
than its method-specific id (the `did:` scheme, the method, and the
separating colon). -/
theorem goLen_lower_bound (s : String) (d : DID)
    (h : did.Parse s = some d) :
    (utf8Bytes d.id).length + 5 ≤ goLen s := by
  have hfmt := formatChars_parseChars s.data d h
  unfold goLen
  rw [← hfmt]
  have h1 : (utf8EncodeChar 'd').length = 1 := rfl
  have h2 : (utf8EncodeChar 'i').length = 1 := rfl
  have h3 : (utf8EncodeChar ':').length = 1 := rfl
  simp [formatChars, utf8Bytes, utf8Bytes_append, List.length_append,
    h1, h2, h3]
  omega

/-- C8 helper, lifted to strings. -/
theorem did_roundtrip (s : String) (d : DID) (h : did.Parse s = some d) :
    d.string = s := by
  have hfmt := formatChars_parseChars s.data d h
  unfold DID.string
  rw [hfmt]

/-! ## Claims -/

/-- C8: for every syntactically valid identifier string `s`, formatting the
result of parsing `s` returns exactly `s`: `format(parse(s)) == s`. -/
theorem claim_format_parse_roundtrip (s : String) (d : DID)
    (h : did.Parse s = some d) : d.string = s :=
  did_roundtrip s d h

/-- Witness for C8 at the concrete string `did:go:abc123#frag`. -/
theorem claim_format_parse_roundtrip_witness :
    did.Parse "did:go:abc123#frag"
        = some ⟨"go".data, "abc123".data, "frag".data⟩
      ∧ (DID.string ⟨"go".data, "abc123".data, "frag".data⟩)
        = "did:go:abc123#frag" :=
  ⟨by decide,
    claim_format_parse_roundtrip "did:go:abc123#frag"
      ⟨"go".data, "abc123".data, "frag".data⟩ (by decide)⟩

/-- C1: for every identifier whose method-specific id is longer than 32
bytes when UTF-8 encoded, `CreateDID` fails with a ValidationError and
issues no network call (no upload, no registry transaction). -/
theorem claim_createDID_oversize_id (registryAddress s : String) (d : DID)
    (keyOk : Bool) (pubKeyBytes : List Nat) (now : Nat)
    (encodeDoc : Document → String) (upload : String → String → String)
    (hparse : did.Parse s = some d)
    (hlong : 32 < (utf8Bytes d.id).length) :
    (CreateDID registryAddress s keyOk pubKeyBytes now encodeDoc upload).1 = []
      ∧ ∃ e, (CreateDID registryAddress s keyOk pubKeyBytes now encodeDoc
          upload).2 = .error e ∧ isValidationError e = true := by
  by_cases hreg : registryAddress = ""
  · exact ⟨by simp [CreateDID, hreg],
      ⟨.registryRequired, by simp [CreateDID, hreg], rfl⟩⟩
  · by_cases hs : s = ""
    · exact ⟨by simp [CreateDID, hreg, hs],
        ⟨.didRequired, by simp [CreateDID, hreg, hs], rfl⟩⟩
    · have hlen : MaxDIDLength < goLen s := by
        have := goLen_lower_bound s d hparse
        unfold MaxDIDLength
        omega
      by_cases hm : d.method = "go".data
      · exact ⟨by simp [CreateDID, hreg, hs, hparse, hm, hlen],
          ⟨.idTooLong, by simp [CreateDID, hreg, hs, hparse, hm, hlen], rfl⟩⟩
      · exact ⟨by simp [CreateDID, hreg, hs, hparse, hm],
          ⟨.wrongMethod, by simp [CreateDID, hreg, hs, hparse, hm], rfl⟩⟩

/-- Witness for C1 at a 33-character method-specific id. -/
theorem claim_createDID_oversize_id_witness :
    (did.Parse (String.mk ("did:go:".data ++ List.replicate 33 'a'))
        = some ⟨"go".data, List.replicate 33 'a', []⟩
      ∧ 32 < (utf8Bytes (DID.id ⟨"go".data, List.replicate 33 'a', []⟩)).length)
    ∧ ((CreateDID "0xreg" (String.mk ("did:go:".data ++ List.replicate 33 'a'))
          true [] 0 (fun _ => "") (fun _ _ => "")).1 = []
      ∧ ∃ e, (CreateDID "0xreg"
          (String.mk ("did:go:".data ++ List.replicate 33 'a'))
          true [] 0 (fun _ => "") (fun _ _ => "")).2 = .error e
        ∧ isValidationError e = true) :=
  ⟨⟨by decide, by decide⟩,
    claim_createDID_oversize_id "0xreg"
      (String.mk ("did:go:".data ++ List.replicate 33 'a'))
      ⟨"go".data, List.replicate 33 'a', []⟩ true [] 0 (fun _ => "")
      (fun _ _ => "") (by decide) (by decide)⟩

/-- C7: for every parseable identifier whose method is not `go`,
`CreateDID` fails with a ValidationError and issues no upload or on-chain
write, while the non-registering operations (`DIDOwner`, `DIDHash`) still
accept the identifier. -/
theorem claim_createDID_wrong_method (registryAddress s : String) (d : DID)
    (keyOk : Bool) (pubKeyBytes : List Nat) (now : Nat)
    (encodeDoc : Document → String) (upload : String → String → String)
    (hparse : did.Parse s = some d)
    (hm : d.method ≠ "go".data) :
    ((CreateDID registryAddress s keyOk pubKeyBytes now encodeDoc upload).1
        = []
      ∧ ∃ e, (CreateDID registryAddress s keyOk pubKeyBytes now encodeDoc
          upload).2 = .error e ∧ isValidationError e = true)
    ∧ (∀ reg2 ownerOf, reg2 ≠ "" →
        DIDOwner reg2 s ownerOf = .ok (didKey32 d, ownerOf (didKey32 d)))
    ∧ (∀ reg2 hashOf, reg2 ≠ "" →
        DIDHash reg2 s hashOf = .ok (didKey32 d, hashOf (didKey32 d))) := by
  refine ⟨?_, ?_, ?_⟩
  · by_cases hreg : registryAddress = ""
    · exact ⟨by simp [CreateDID, hreg],
        ⟨.registryRequired, by simp [CreateDID, hreg], rfl⟩⟩
    · by_cases hs : s = ""
      · exact ⟨by simp [CreateDID, hreg, hs],
          ⟨.didRequired, by simp [CreateDID, hreg, hs], rfl⟩⟩
      · exact ⟨by simp [CreateDID, hreg, hs, hparse, hm],
          ⟨.wrongMethod, by simp [CreateDID, hreg, hs, hparse, hm], rfl⟩⟩
  · intro reg2 ownerOf hreg2
    simp [DIDOwner, hreg2, hparse]
  · intro reg2 hashOf hreg2
    simp [DIDHash, hreg2, hparse]

/-- Witness for C7 at the identifier `did:web:abc` with method `web`. -/
theorem claim_createDID_wrong_method_witness :
    (did.Parse "did:web:abc" = some ⟨"web".data, "abc".data, []⟩
      ∧ DID.method ⟨"web".data, "abc".data, []⟩ ≠ "go".data)
    ∧ (((CreateDID "0xreg" "did:web:abc" true [] 0 (fun _ => "")
          (fun _ _ => "")).1 = []
        ∧ ∃ e, (CreateDID "0xreg" "did:web:abc" true [] 0 (fun _ => "")
            (fun _ _ => "")).2 = .error e ∧ isValidationError e = true)
      ∧ (∀ reg2 ownerOf, reg2 ≠ "" →
          DIDOwner reg2 "did:web:abc" ownerOf
            = .ok (didKey32 ⟨"web".data, "abc".data, []⟩,
                ownerOf (didKey32 ⟨"web".data, "abc".data, []⟩)))
      ∧ (∀ reg2 hashOf, reg2 ≠ "" →
          DIDHash reg2 "did:web:abc" hashOf
            = .ok (didKey32 ⟨"web".data, "abc".data, []⟩,
                hashOf (didKey32 ⟨"web".data, "abc".data, []⟩)))) :=
  ⟨⟨by decide, by decide⟩,
    claim_createDID_wrong_method "0xreg" "did:web:abc"
      ⟨"web".data, "abc".data, []⟩ true [] 0 (fun _ => "") (fun _ _ => "")
      (by decide) (by decide)⟩

/-- The Go copy-into-zeroed-array semantics equals right zero-padding plus
truncation at 32 bytes. -/
theorem goCopy32_eq_pad_truncate (bytes : List Nat) :
    goCopy32 bytes
      = bytes.take 32 ++ List.replicate (32 - bytes.length) 0 := by
  apply List.ext_getElem
  · simp [goCopy32]
    omega
  · intro i h1 h2
    simp only [goCopy32, List.getElem_map, List.getElem_range]
    by_cases hi : i < bytes.length
    · rw [dif_pos hi]
      have hlt : i < (bytes.take 32).length := by
        simp [goCopy32] at h1
        simp
        omega
      rw [List.getElem_append_left hlt]
      simp [List.getElem_take]
    · rw [dif_neg hi]
      have hge : (bytes.take 32).length ≤ i := by
        simp
        omega
      rw [List.getElem_append_right hge]
      simp

/-- C9: every registry operation (register, owner, hash lookup) keys the
contract with the method-specific id as UTF-8 bytes zero-padded on the
right to exactly 32 bytes (bytes beyond 32 truncated), and all of them
compute the same key for the same identifier. -/
theorem claim_registry_key_consistent (reg s : String) (d : DID)
    (hparse : did.Parse s = some d) (hreg : reg ≠ "") :
    didKey32 d = (utf8Bytes d.id).take 32
        ++ List.replicate (32 - (utf8Bytes d.id).length) 0
    ∧ (didKey32 d).length = 32
    ∧ (∀ ownerOf, DIDOwner reg s ownerOf
        = .ok (didKey32 d, ownerOf (didKey32 d)))
    ∧ (∀ hashOf, DIDHash reg s hashOf
        = .ok (didKey32 d, hashOf (didKey32 d)))
    ∧ (∀ hashOf fetch dec k hsh doc,
        readDIDDocument reg s hashOf fetch dec = .ok (k, hsh, doc) →
          k = didKey32 d)
    ∧ (∀ keyOk pk now encD up succ,
        (CreateDID reg s keyOk pk now encD up).2 = .ok succ →
          (CreateDID reg s keyOk pk now encD up).1
            = [.upload "did.json" (encD succ.doc),
                .registerTx (didKey32 d) succ.hash]) := by
  refine ⟨goCopy32_eq_pad_truncate _, by simp [didKey32, goCopy32], ?_, ?_,
    ?_, ?_⟩
  · intro ownerOf
    simp [DIDOwner, hreg, hparse]
  · intro hashOf
    simp [DIDHash, hreg, hparse]
  · intro hashOf fetch dec k hsh doc h
    simp only [readDIDDocument, if_neg hreg, hparse] at h
    cases hf : fetch (hashOf (didKey32 d)) with
    | none => rw [hf] at h; simp at h
    | some body =>
      rw [hf] at h
      dsimp only at h
      cases hd : dec body with
      | none => rw [hd] at h; simp at h
      | some doc0 =>
        rw [hd] at h
        simp at h
        exact h.1.symm
  · intro keyOk pk now encD up succ h
    by_cases hs : s = ""
    · simp [CreateDID, hreg, hs] at h
    · by_cases hm : d.method = "go".data
      · by_cases hlen : MaxDIDLength < goLen s
        · simp [CreateDID, hreg, hs, hparse, hm, hlen] at h
        · by_cases hk : keyOk
          · simp only [CreateDID, if_neg hreg, if_neg hs, hparse, hm,
              if_neg hlen] at h ⊢
            simp only [hk] at h ⊢
            simp at h
            subst h
            simp
          · simp [CreateDID, hreg, hs, hparse, hm, hlen, hk] at h
      · simp [CreateDID, hreg, hs, hparse, hm] at h

/-- Witness for C9 at `did:go:abc123` with a non-empty registry address. -/
theorem claim_registry_key_consistent_witness :
    (did.Parse "did:go:abc123" = some ⟨"go".data, "abc123".data, []⟩
      ∧ ("0xreg" : String) ≠ "")
    ∧ (didKey32 ⟨"go".data, "abc123".data, []⟩
        = (utf8Bytes (DID.id ⟨"go".data, "abc123".data, []⟩)).take 32
          ++ List.replicate
            (32 - (utf8Bytes (DID.id ⟨"go".data, "abc123".data, []⟩)).length) 0
      ∧ (didKey32 ⟨"go".data, "abc123".data, []⟩).length = 32
      ∧ (∀ ownerOf, DIDOwner "0xreg" "did:go:abc123" ownerOf
          = .ok (didKey32 ⟨"go".data, "abc123".data, []⟩,
              ownerOf (didKey32 ⟨"go".data, "abc123".data, []⟩)))
      ∧ (∀ hashOf, DIDHash "0xreg" "did:go:abc123" hashOf
          = .ok (didKey32 ⟨"go".data, "abc123".data, []⟩,
              hashOf (didKey32 ⟨"go".data, "abc123".data, []⟩)))
      ∧ (∀ hashOf fetch dec k hsh doc,
          readDIDDocument "0xreg" "did:go:abc123" hashOf fetch dec
              = .ok (k, hsh, doc) →
            k = didKey32 ⟨"go".data, "abc123".data, []⟩)
      ∧ (∀ keyOk pk now encD up succ,
          (CreateDID "0xreg" "did:go:abc123" keyOk pk now encD up).2
              = .ok succ →
            (CreateDID "0xreg" "did:go:abc123" keyOk pk now encD up).1
              = [.upload "did.json" (encD succ.doc),
                  .registerTx (didKey32 ⟨"go".data, "abc123".data, []⟩)
                    succ.hash])) :=
  ⟨⟨by decide, by decide⟩,
    claim_registry_key_consistent "0xreg" "did:go:abc123"
      ⟨"go".data, "abc123".data, []⟩ (by decide) (by decide)⟩

/-- C4: for every identifier, owner public key, and time `now`, the
document-construction step of `CreateDID` produces a Document whose context
is the fixed schema URI, whose id is the string form of the identifier,
whose created and updated timestamps both equal `now`, whose single public
key has id equal to the identifier with fragment `owner`, type
`Secp256k1VerificationKey2018`, controller equal to the identifier, and
hex-encoded key bytes, and whose authentications are one string reference
to that key id; a successful `CreateDID` run anchors exactly this
document. -/
theorem claim_document_builder (s : String) (d : DID) (pk : List Nat)
    (now : Nat) (hparse : did.Parse s = some d) :
    (buildDIDDocument d pk now).context = ContextV1
    ∧ (buildDIDDocument d pk now).id = d.string
    ∧ (buildDIDDocument d pk now).created = some now
    ∧ (buildDIDDocument d pk now).updated = some now
    ∧ (buildDIDDocument d pk now).publicKeys
      = [{ id := DID.string { d with fragment := "owner".data }
           type := "Secp256k1VerificationKey2018"
           controller := d.string
           publicKeyHex := toHex pk }]
    ∧ (buildDIDDocument d pk now).authentications
      = [.ref (DID.string { d with fragment := "owner".data })]
    ∧ (buildDIDDocument d pk now).services = []
    ∧ (buildDIDDocument d pk now).proof = none
    ∧ (∀ reg keyOk encD up succ,
        (CreateDID reg s keyOk pk now encD up).2 = .ok succ →
          succ.doc = buildDIDDocument d pk now) := by
  refine ⟨rfl, rfl, rfl, rfl, rfl, rfl, rfl, rfl, ?_⟩
  intro reg keyOk encD up succ h
  by_cases hreg : reg = ""
  · simp [CreateDID, hreg] at h
  · by_cases hs : s = ""
    · simp [CreateDID, hreg, hs] at h
    · by_cases hm : d.method = "go".data
      · by_cases hlen : MaxDIDLength < goLen s
        · simp [CreateDID, hreg, hs, hparse, hm, hlen] at h
        · by_cases hk : keyOk
          · simp only [CreateDID, if_neg hreg, if_neg hs, hparse, hm,
              if_neg hlen] at h
            simp only [hk] at h
            simp at h
            subst h
            rfl
          · simp [CreateDID, hreg, hs, hparse, hm, hlen, hk] at h
      · simp [CreateDID, hreg, hs, hparse, hm] at h

/-- Witness for C4 at `did:go:abc123` with a two-byte key and time 7. -/
theorem claim_document_builder_witness :
    did.Parse "did:go:abc123" = some ⟨"go".data, "abc123".data, []⟩
    ∧ ((buildDIDDocument ⟨"go".data, "abc123".data, []⟩ [1, 2] 7).context
        = ContextV1
      ∧ (buildDIDDocument ⟨"go".data, "abc123".data, []⟩ [1, 2] 7).id
        = DID.string ⟨"go".data, "abc123".data, []⟩
      ∧ (buildDIDDocument ⟨"go".data, "abc123".data, []⟩ [1, 2] 7).created
        = some 7
      ∧ (buildDIDDocument ⟨"go".data, "abc123".data, []⟩ [1, 2] 7).updated
        = some 7
      ∧ (buildDIDDocument ⟨"go".data, "abc123".data, []⟩ [1, 2] 7).publicKeys
        = [{ id := DID.string { (⟨"go".data, "abc123".data, []⟩ : DID) with
               fragment := "owner".data }
             type := "Secp256k1VerificationKey2018"
             controller := DID.string ⟨"go".data, "abc123".data, []⟩
             publicKeyHex := toHex [1, 2] }]
      ∧ (buildDIDDocument ⟨"go".data, "abc123".data, []⟩ [1, 2]
          7).authentications
        = [.ref (DID.string { (⟨"go".data, "abc123".data, []⟩ : DID) with
            fragment := "owner".data })]
      ∧ (buildDIDDocument ⟨"go".data, "abc123".data, []⟩ [1, 2] 7).services
        = []
      ∧ (buildDIDDocument ⟨"go".data, "abc123".data, []⟩ [1, 2] 7).proof
        = none
      ∧ (∀ reg keyOk encD up succ,
          (CreateDID reg "did:go:abc123" keyOk [1, 2] 7 encD up).2
              = .ok succ →
            succ.doc = buildDIDDocument ⟨"go".data, "abc123".data, []⟩
              [1, 2] 7)) :=
  ⟨by decide,
    claim_document_builder "did:go:abc123" ⟨"go".data, "abc123".data, []⟩
      [1, 2] 7 (by decide)⟩

/-! ## Map lemmas -/

/-- Writing a key with Go map assignment makes it readable. -/
theorem mapGet_mapSet_self (m : List (String × Json)) (k : String)
    (v : Json) : mapGet (mapSet m k v) k = some v := by
  unfold mapGet mapSet
  rw [List.find?_append]
  have hnone : (m.filter (fun e => e.1 ≠ k)).find? (fun e => e.1 = k)
      = none := by
    rw [List.find?_eq_none]
    intro e he
    have := List.of_mem_filter he
    simp at this
    simp [this]
  rw [hnone]
  simp

/-- Searching a filtered list with a trailing element the predicate
rejects finds the same entry as searching the original list, provided the
predicate fails on everything the filter removed. -/
theorem find?_filter_append_aux {a : Type} (p q : a → Bool) (x : a)
    (hx : p x = false) (himp : ∀ e, q e = false → p e = false) :
    ∀ l : List a, (l.filter q ++ [x]).find? p = l.find? p := by
  intro l
  induction l with
  | nil => simp [List.find?, hx]
  | cons e rest ih =>
    cases hq : q e with
    | true =>
      cases hp : p e with
      | true => simp [List.filter_cons, hq, List.find?_cons, hp]
      | false => simp [List.filter_cons, hq, List.find?_cons, hp, ih]
    | false =>
      have hp := himp e hq
      simp [List.filter_cons, hq, List.find?_cons, hp, ih]

/-- Go map assignment leaves every other key unchanged. -/
theorem mapGet_mapSet_ne (m : List (String × Json)) (k k' : String)
    (v : Json) (h : k' ≠ k) :
    mapGet (mapSet m k v) k' = mapGet m k' := by
  unfold mapGet mapSet
  rw [find?_filter_append_aux (fun e => decide (e.1 = k'))
    (fun e => decide (e.1 ≠ k)) (k, v)
    (by simp; exact fun he => h he.symm)
    (by intro e he; simp at he ⊢; rw [he]; exact fun hh => h hh.symm) m]

/-- Deleting a key removes it from the key list. -/
theorem not_mem_mapDel_keys (m : List (String × Json)) (k : String) :
    k ∉ (mapDel m k).map Prod.fst := by
  intro h
  simp only [mapDel, List.mem_map] at h
  obtain ⟨e, he, heq⟩ := h
  have := List.of_mem_filter he
  simp at this
  exact this heq

/-! ## C2 and C5: issuance and the sign/verify digest agreement -/

/-- C2: the Keccak-256 pre-image `VerifyClaim` computes over a credential
issued by `SignClaim` — the canonical serialization of the credential with
its proof field cleared — is byte-for-byte the pre-image `SignClaim`
hashed before signing, so both sides compute the same digest. -/
theorem claim_verify_preimage_eq_sign_preimage (keccak : String → List Nat)
    (sign : List Nat → List Nat) (id typ issuerID subjectID : String)
    (subject : List (String × Json)) (nowNs : Nat) :
    verifyPreimage
        (signClaimCred keccak sign id typ issuerID subjectID subject nowNs)
      = signPreimage id typ issuerID subjectID subject nowNs
    ∧ keccak (verifyPreimage
        (signClaimCred keccak sign id typ issuerID subjectID subject nowNs))
      = keccak (signPreimage id typ issuerID subjectID subject nowNs) :=
  ⟨rfl, rfl⟩

/-- C5: for every issuance with parseable issuer and subject identifiers
and non-empty id and type, `SignClaim` succeeds and the issued credential
has `credentialSubject` with the `id` key overwritten by the subject
identifier and every other key preserved, `issuanceDate` equal to the
current time truncated to whole seconds, `proofValue` the no-prefix hex of
the recoverable signature over the Keccak-256 digest of the proof-less
credential with the trailing recovery byte stripped, and a proof of type
`Secp256k1VerificationKey2018` whose created timestamp equals the
issuance date. -/
theorem claim_signClaim_spec (keccak : String → List Nat)
    (sign : List Nat → List Nat) (id typ issuerID subjectID : String)
    (subject : List (String × Json)) (nowNs : Nat) (di ds : DID)
    (hid : id ≠ "") (htyp : typ ≠ "")
    (hiss : did.Parse issuerID = some di)
    (hsub : did.Parse subjectID = some ds) :
    SignClaim keccak sign true id typ issuerID subjectID subject nowNs
      = .ok (signClaimCred keccak sign id typ issuerID subjectID subject
          nowNs)
    ∧ (signClaimCred keccak sign id typ issuerID subjectID subject
        nowNs).credentialSubject
      = some (mapSet subject "id" (.str subjectID))
    ∧ mapGet (mapSet subject "id" (.str subjectID)) "id"
      = some (.str subjectID)
    ∧ (∀ k, k ≠ "id" →
        mapGet (mapSet subject "id" (.str subjectID)) k = mapGet subject k)
    ∧ (signClaimCred keccak sign id typ issuerID subjectID subject
        nowNs).issuanceDate = some (truncSec nowNs)
    ∧ truncSec nowNs % 1000000000 = 0
    ∧ (signClaimCred keccak sign id typ issuerID subjectID subject
        nowNs).proof
      = some {
          type := "Secp256k1VerificationKey2018"
          created := some (truncSec nowNs)
          proofValue := bytes2Hex ((sign (keccak
            (signPreimage id typ issuerID subjectID subject
              nowNs))).dropLast) }
    ∧ (∀ p, (signClaimCred keccak sign id typ issuerID subjectID subject
          nowNs).proof = some p →
        p.created = (signClaimCred keccak sign id typ issuerID subjectID
          subject nowNs).issuanceDate) := by
  have hissne : issuerID ≠ "" := by
    intro he
    rw [he] at hiss
    simp [did.Parse, parseChars] at hiss
  have hsubne : subjectID ≠ "" := by
    intro he
    rw [he] at hsub
    simp [did.Parse, parseChars] at hsub
  refine ⟨?_, rfl, mapGet_mapSet_self subject "id" (.str subjectID),
    fun k hk => mapGet_mapSet_ne subject "id" k (.str subjectID) hk, rfl,
    by unfold truncSec; omega, rfl, ?_⟩
  · simp [SignClaim, hid, htyp, hissne, hiss, hsubne, hsub]
  · intro p hp
    have : p = { type := "Secp256k1VerificationKey2018"
                 created := some (truncSec nowNs)
                 proofValue := bytes2Hex ((sign (keccak
                   (signPreimage id typ issuerID subjectID subject
                     nowNs))).dropLast) } := by
      have h0 : (signClaimCred keccak sign id typ issuerID subjectID subject
          nowNs).proof
        = some { type := "Secp256k1VerificationKey2018"
                 created := some (truncSec nowNs)
                 proofValue := bytes2Hex ((sign (keccak
                   (signPreimage id typ issuerID subjectID subject
                     nowNs))).dropLast) } := rfl
      rw [h0] at hp
      exact (Option.some_inj.mp hp).symm
    rw [this]
    rfl

/-- Witness for C5 at a concrete issuance. -/
theorem claim_signClaim_spec_witness :
    (("urn:1" : String) ≠ "" ∧ ("ProofOfAge" : String) ≠ ""
      ∧ did.Parse "did:go:issuer1" = some ⟨"go".data, "issuer1".data, []⟩
      ∧ did.Parse "did:go:subj1" = some ⟨"go".data, "subj1".data, []⟩)
    ∧ (SignClaim (fun s => [s.length % 256]) (fun d => d ++ [9]) true
        "urn:1" "ProofOfAge" "did:go:issuer1" "did:go:subj1"
        [("age", .num 21)] 2500000000
      = .ok (signClaimCred (fun s => [s.length % 256]) (fun d => d ++ [9])
          "urn:1" "ProofOfAge" "did:go:issuer1" "did:go:subj1"
          [("age", .num 21)] 2500000000)
      ∧ (signClaimCred (fun s => [s.length % 256]) (fun d => d ++ [9])
          "urn:1" "ProofOfAge" "did:go:issuer1" "did:go:subj1"
          [("age", .num 21)] 2500000000).credentialSubject
        = some (mapSet [("age", .num 21)] "id" (.str "did:go:subj1"))
      ∧ mapGet (mapSet [("age", .num 21)] "id" (.str "did:go:subj1")) "id"
        = some (.str "did:go:subj1")
      ∧ (∀ k, k ≠ "id" →
          mapGet (mapSet [("age", .num 21)] "id" (.str "did:go:subj1")) k
            = mapGet [("age", .num 21)] k)
      ∧ (signClaimCred (fun s => [s.length % 256]) (fun d => d ++ [9])
          "urn:1" "ProofOfAge" "did:go:issuer1" "did:go:subj1"
          [("age", .num 21)] 2500000000).issuanceDate
        = some (truncSec 2500000000)
      ∧ truncSec 2500000000 % 1000000000 = 0
      ∧ (signClaimCred (fun s => [s.length % 256]) (fun d => d ++ [9])
          "urn:1" "ProofOfAge" "did:go:issuer1" "did:go:subj1"
          [("age", .num 21)] 2500000000).proof
        = some {
            type := "Secp256k1VerificationKey2018"
            created := some (truncSec 2500000000)
            proofValue := bytes2Hex ((((fun (d : List Nat) => d ++ [9])
              ((fun (s : String) => [s.length % 256])
                (signPreimage "urn:1" "ProofOfAge" "did:go:issuer1"
                  "did:go:subj1" [("age", .num 21)]
                  2500000000)))).dropLast) }
      ∧ (∀ p, (signClaimCred (fun s => [s.length % 256])
            (fun d => d ++ [9]) "urn:1" "ProofOfAge" "did:go:issuer1"
            "did:go:subj1" [("age", .num 21)] 2500000000).proof = some p →
          p.created = (signClaimCred (fun s => [s.length % 256])
            (fun d => d ++ [9]) "urn:1" "ProofOfAge" "did:go:issuer1"
            "did:go:subj1" [("age", .num 21)]
            2500000000).issuanceDate)) :=
  ⟨⟨by decide, by decide, by decide, by decide⟩,
    claim_signClaim_spec (fun s => [s.length % 256]) (fun d => d ++ [9])
      "urn:1" "ProofOfAge" "did:go:issuer1" "did:go:subj1"
      [("age", .num 21)] 2500000000 ⟨"go".data, "issuer1".data, []⟩
      ⟨"go".data, "subj1".data, []⟩ (by decide) (by decide) (by decide)
      (by decide)⟩

/-! ## Order lemmas for the key sort -/

theorem strLeb_total (a : List Char) :
    ∀ b, strLeb a b = true ∨ strLeb b a = true := by
  induction a with
  | nil => intro b; left; rfl
  | cons x xs ih =>
    intro b
    cases b with
    | nil => right; rfl
    | cons y ys =>
      rcases Nat.lt_trichotomy x.toNat y.toNat with hlt | heq | hgt
      · left; simp [strLeb, hlt]
      · have hny : ¬ x.toNat < y.toNat := by omega
        have hnx : ¬ y.toNat < x.toNat := by omega
        rcases ih ys with h1 | h1
        · left; simp [strLeb, hny, hnx, h1]
        · right; simp [strLeb, hny, hnx, h1]
      · right; simp [strLeb, hgt]

theorem strLeb_trans (a : List Char) :
    ∀ b c, strLeb a b = true → strLeb b c = true → strLeb a c = true := by
  induction a with
  | nil => intro b c _ _; rfl
  | cons x xs ih =>
    intro b c hab hbc
    cases b with
    | nil => simp [strLeb] at hab
    | cons y ys =>
      cases c with
      | nil => simp [strLeb] at hbc
      | cons z zs =>
        by_cases hxy : x.toNat < y.toNat
        · by_cases hyz : y.toNat < z.toNat
          · have : x.toNat < z.toNat := Nat.lt_trans hxy hyz
            simp [strLeb, this]
          · by_cases hzy : z.toNat < y.toNat
            · simp [strLeb, hyz, hzy] at hbc
            · have : x.toNat < z.toNat := by omega
              simp [strLeb, this]
        · by_cases hyx : y.toNat < x.toNat
          · simp [strLeb, hxy, hyx] at hab
          · simp [strLeb, hxy, hyx] at hab
            by_cases hyz : y.toNat < z.toNat
            · have : x.toNat < z.toNat := by omega
              simp [strLeb, this]
            · by_cases hzy : z.toNat < y.toNat
              · simp [strLeb, hyz, hzy] at hbc
              · simp [strLeb, hyz, hzy] at hbc
                have hxz : ¬ x.toNat < z.toNat := by omega
                have hzx : ¬ z.toNat < x.toNat := by omega
                simp [strLeb, hxz, hzx]
                exact ih ys zs hab hbc

instance : IsTotal String (fun a b => goStrLe a b = true) :=
  ⟨fun a b => strLeb_total a.data b.data⟩

instance : IsTrans String (fun a b => goStrLe a b = true) :=
  ⟨fun a b c => strLeb_trans a.data b.data c.data⟩

/-! ## The verification loop -/

/-- With a proof present, the key loop reports whether some key of the
document has the supported type and verifies the signature. -/
theorem verifyLoop_some (v : List Nat → List Nat → List Nat → Bool)
    (h : List Nat) (p : VCProof) (keys : List PublicKey) :
    verifyLoop v h (some p) keys
      = some (keys.any fun pk =>
          decide (pk.type = "Secp256k1VerificationKey2018")
            && v (hex2Bytes (trim0x pk.publicKeyHex)) h
              (hex2Bytes p.proofValue)) := by
  induction keys with
  | nil => rfl
  | cons pk rest ih =>
    by_cases ht : pk.type = "Secp256k1VerificationKey2018"
    · by_cases hv : v (hex2Bytes (trim0x pk.publicKeyHex)) h
          (hex2Bytes p.proofValue)
      · simp [verifyLoop, ht, hv]
      · simp [verifyLoop, ht, hv, ih]
    · simp [verifyLoop, ht, ih]

/-- Keys whose type is not `Secp256k1VerificationKey2018` are skipped: the
loop behaves identically on the filtered key list. -/
theorem verifyLoop_filter (v : List Nat → List Nat → List Nat → Bool)
    (h : List Nat) (pf : Option VCProof) (keys : List PublicKey) :
    verifyLoop v h pf
        (keys.filter fun pk => pk.type = "Secp256k1VerificationKey2018")
      = verifyLoop v h pf keys := by
  induction keys with
  | nil => rfl
  | cons pk rest ih =>
    by_cases ht : pk.type = "Secp256k1VerificationKey2018"
    · have hcond : (decide (pk.type = "Secp256k1VerificationKey2018"))
          = true := by simp [ht]
      simp only [List.filter_cons, hcond, if_true]
      cases pf with
      | none => simp [verifyLoop, ht]
      | some p =>
        by_cases hv : v (hex2Bytes (trim0x pk.publicKeyHex)) h
            (hex2Bytes p.proofValue)
        · simp [verifyLoop, ht, hv]
        · simp [verifyLoop, ht, hv, ih]
    · simp only [List.filter_cons, ht]
      simp [verifyLoop, ht, ih]

/-- C6: the verifier considers only the issuer document keys whose type is
`Secp256k1VerificationKey2018` (other key types are skipped without error),
and fails with VerificationFailure exactly when no candidate key verifies
the proof value against the recomputed digest; it succeeds exactly when
some candidate does. -/
theorem claim_verifier_key_selection (reg : String)
    (hashOf : List Nat → String) (fetch : String → Option String)
    (dec : String → Option Document) (keccak : String → List Nat)
    (v : List Nat → List Nat → List Nat → Bool)
    (cred : VerifiableCredential) (p : VCProof) (k : List Nat)
    (hsh : String) (doc : Document)
    (hp : cred.proof = some p)
    (hres : readDIDDocument reg cred.issuer hashOf fetch dec
      = .ok (k, hsh, doc)) :
    verifyLoop v (keccak (verifyPreimage cred)) cred.proof
        (doc.publicKeys.filter fun pk =>
          pk.type = "Secp256k1VerificationKey2018")
      = verifyLoop v (keccak (verifyPreimage cred)) cred.proof
          doc.publicKeys
    ∧ (VerifyClaim reg hashOf fetch dec keccak v cred
          = .error .notVerified
        ↔ ∀ pk ∈ doc.publicKeys,
            pk.type = "Secp256k1VerificationKey2018" →
              v (hex2Bytes (trim0x pk.publicKeyHex))
                (keccak (verifyPreimage cred))
                (hex2Bytes p.proofValue) = false)
    ∧ ((∃ r, VerifyClaim reg hashOf fetch dec keccak v cred = .ok r)
        ↔ ∃ pk ∈ doc.publicKeys,
            pk.type = "Secp256k1VerificationKey2018"
              ∧ v (hex2Bytes (trim0x pk.publicKeyHex))
                  (keccak (verifyPreimage cred))
                  (hex2Bytes p.proofValue) = true) := by
  refine ⟨verifyLoop_filter v _ cred.proof doc.publicKeys, ?_⟩
  have hred : VerifyClaim reg hashOf fetch dec keccak v cred
      = (match verifyLoop v (keccak (verifyPreimage cred)) cred.proof
            doc.publicKeys with
        | none => .error .nilProofPanic
        | some false => .error .notVerified
        | some true =>
          .ok {
            subjectID := mapGet (cred.credentialSubject.getD []) "id"
            claimKeys :=
              ((mapDel (cred.credentialSubject.getD []) "id").map
                Prod.fst).insertionSort (fun a b => goStrLe a b = true)
            claims := mapDel (cred.credentialSubject.getD []) "id"
            credID := cred.id
            credType := cred.type
            issuer := cred.issuer
            issuanceDate := cred.issuanceDate }) := by
    simp only [VerifyClaim, hres]
  rw [hp, verifyLoop_some] at hred
  cases hany : doc.publicKeys.any fun pk =>
      decide (pk.type = "Secp256k1VerificationKey2018")
        && v (hex2Bytes (trim0x pk.publicKeyHex))
          (keccak (verifyPreimage cred)) (hex2Bytes p.proofValue) with
  | false =>
    rw [hany] at hred
    rw [List.any_eq_false] at hany
    constructor
    · rw [hred]
      constructor
      · intro _ pk hpk htype
        have := hany pk hpk
        simp [htype] at this
        exact this
      · intro _; rfl
    · rw [hred]
      constructor
      · intro ⟨r, hr⟩; exact absurd hr (by simp)
      · intro ⟨pk, hpk, htype, hv⟩
        have := hany pk hpk
        simp [htype, hv] at this
  | true =>
    rw [hany] at hred
    rw [List.any_eq_true] at hany
    obtain ⟨pk, hpk, hcond⟩ := hany
    rw [Bool.and_eq_true] at hcond
    obtain ⟨htype, hv⟩ := hcond
    rw [decide_eq_true_eq] at htype
    constructor
    · rw [hred]
      constructor
      · intro habs; exact absurd habs (by simp)
      · intro hall
        have := hall pk hpk htype
        rw [this] at hv
        exact absurd hv (by simp)
    · rw [hred]
      constructor
      · intro _; exact ⟨pk, hpk, htype, hv⟩
      · intro _; exact ⟨_, rfl⟩

/-- Unfolding of `VerifyClaim` once the issuer document resolution is
known. -/
theorem VerifyClaim_unfold (reg : String) (hashOf : List Nat → String)
    (fetch : String → Option String) (dec : String → Option Document)
    (keccak : String → List Nat)
    (v : List Nat → List Nat → List Nat → Bool)
    (cred : VerifiableCredential) (k : List Nat) (hsh : String)
    (doc : Document)
    (hres : readDIDDocument reg cred.issuer hashOf fetch dec
      = .ok (k, hsh, doc)) :
    VerifyClaim reg hashOf fetch dec keccak v cred
      = (match verifyLoop v (keccak (verifyPreimage cred)) cred.proof
            doc.publicKeys with
        | none => .error .nilProofPanic
        | some false => .error .notVerified
        | some true =>
          .ok {
            subjectID := mapGet (cred.credentialSubject.getD []) "id"
            claimKeys :=
              ((mapDel (cred.credentialSubject.getD []) "id").map
                Prod.fst).insertionSort (fun a b => goStrLe a b = true)
            claims := mapDel (cred.credentialSubject.getD []) "id"
            credID := cred.id
            credType := cred.type
            issuer := cred.issuer
            issuanceDate := cred.issuanceDate }) := by
  simp only [VerifyClaim, hres]

/-- C10: when the signature verifies, verification never fails on a
missing credentialSubject: a nil subject is replaced by an empty map, the
`id` entry is extracted and removed from the reported claims, and the
remaining claim keys are reported in sorted order. -/
theorem claim_verify_subject_reporting (reg : String)
    (hashOf : List Nat → String) (fetch : String → Option String)
    (dec : String → Option Document) (keccak : String → List Nat)
    (v : List Nat → List Nat → List Nat → Bool)
    (cred : VerifiableCredential) (p : VCProof) (k : List Nat)
    (hsh : String) (doc : Document)
    (hp : cred.proof = some p)
    (hres : readDIDDocument reg cred.issuer hashOf fetch dec
      = .ok (k, hsh, doc))
    (hver : doc.publicKeys.any (fun pk =>
        decide (pk.type = "Secp256k1VerificationKey2018")
          && v (hex2Bytes (trim0x pk.publicKeyHex))
            (keccak (verifyPreimage cred)) (hex2Bytes p.proofValue))
      = true) :
    ∃ r, VerifyClaim reg hashOf fetch dec keccak v cred = .ok r
      ∧ r.subjectID = mapGet (cred.credentialSubject.getD []) "id"
      ∧ r.claims = mapDel (cred.credentialSubject.getD []) "id"
      ∧ r.claimKeys = ((mapDel (cred.credentialSubject.getD []) "id").map
          Prod.fst).insertionSort (fun a b => goStrLe a b = true)
      ∧ List.Sorted (fun a b => goStrLe a b = true) r.claimKeys
      ∧ "id" ∉ r.claimKeys
      ∧ (cred.credentialSubject = none →
          r.subjectID = none ∧ r.claims = [] ∧ r.claimKeys = []) := by
  rw [VerifyClaim_unfold reg hashOf fetch dec keccak v cred k hsh doc hres,
    hp, verifyLoop_some, hver]
  refine ⟨_, rfl, rfl, rfl, rfl,
    List.sorted_insertionSort (fun a b => goStrLe a b = true) _, ?_, ?_⟩
  · intro hmem
    have hmem2 := (List.perm_insertionSort
      (fun a b => goStrLe a b = true) _).mem_iff.mp hmem
    exact not_mem_mapDel_keys _ "id" hmem2
  · intro hn
    rw [hn]
    exact ⟨rfl, rfl, rfl⟩

/-! ## Concrete fixtures for the credential witnesses -/

/-- A Secp256k1 public key entry of the issuer document. -/
def wPk : PublicKey :=
  { id := "did:go:i#owner", type := "Secp256k1VerificationKey2018",
    controller := "did:go:i", publicKeyHex := "0x04ab" }

/-- A key of an unsupported type, to exercise the skip path. -/
def wPkOther : PublicKey :=
  { id := "did:go:i#x", type := "Ed25519VerificationKey2018",
    controller := "did:go:i" }

/-- The issuer document the fixtures resolve to. -/
def wDoc : Document :=
  { context := ContextV1, id := "did:go:i",
    publicKeys := [wPkOther, wPk] }

/-- A credential proof fixture. -/
def wProof : VCProof :=
  { type := "Secp256k1VerificationKey2018", created := some 0,
    proofValue := "00ff" }

/-- A signed credential fixture with two subject claims and a proof. -/
def wCred : VerifiableCredential :=
  { id := "c1", type := ["T"], issuer := "did:go:i", issuanceDate := some 0,
    credentialSubject := some [("b", .num 2), ("a", .num 1),
      ("id", .str "did:go:s")],
    proof := some wProof }

/-- Registry stub returning a fixed content hash. -/
def wHashOf : List Nat → String := fun _ => "H"

/-- Store stub returning a fixed body. -/
def wFetch : String → Option String := fun _ => some "B"

/-- Decoder stub returning the fixture document. -/
def wDec : String → Option Document := fun _ => some wDoc

/-- Digest stub. -/
def wKeccak : String → List Nat := fun _ => [0]

/-- Signature check stub accepting everything. -/
def wVerify : List Nat → List Nat → List Nat → Bool := fun _ _ _ => true

/-- Witness for C10 at the fixture credential. -/
theorem claim_verify_subject_reporting_witness :
    (wCred.proof = some wProof
      ∧ readDIDDocument "r" wCred.issuer wHashOf wFetch wDec
        = .ok (didKey32 ⟨"go".data, "i".data, []⟩, "H", wDoc)
      ∧ wDoc.publicKeys.any (fun pk =>
          decide (pk.type = "Secp256k1VerificationKey2018")
            && wVerify (hex2Bytes (trim0x pk.publicKeyHex))
              (wKeccak (verifyPreimage wCred))
              (hex2Bytes wProof.proofValue)) = true)
    ∧ (∃ r, VerifyClaim "r" wHashOf wFetch wDec wKeccak wVerify wCred
          = .ok r
        ∧ r.subjectID = mapGet (wCred.credentialSubject.getD []) "id"
        ∧ r.claims = mapDel (wCred.credentialSubject.getD []) "id"
        ∧ r.claimKeys = ((mapDel (wCred.credentialSubject.getD []) "id").map
            Prod.fst).insertionSort (fun a b => goStrLe a b = true)
        ∧ List.Sorted (fun a b => goStrLe a b = true) r.claimKeys
        ∧ "id" ∉ r.claimKeys
        ∧ (wCred.credentialSubject = none →
            r.subjectID = none ∧ r.claims = [] ∧ r.claimKeys = [])) :=
  ⟨⟨by decide, rfl, by decide⟩,
    claim_verify_subject_reporting "r" wHashOf wFetch wDec wKeccak wVerify
      wCred wProof (didKey32 ⟨"go".data, "i".data, []⟩) "H" wDoc
      (by decide) rfl (by decide)⟩

/-- Witness for C6 at the fixture credential and document. -/
theorem claim_verifier_key_selection_witness :
    (wCred.proof = some wProof
      ∧ readDIDDocument "r" wCred.issuer wHashOf wFetch wDec
        = .ok (didKey32 ⟨"go".data, "i".data, []⟩, "H", wDoc))
    ∧ (verifyLoop wVerify (wKeccak (verifyPreimage wCred)) wCred.proof
          (wDoc.publicKeys.filter fun pk =>
            pk.type = "Secp256k1VerificationKey2018")
        = verifyLoop wVerify (wKeccak (verifyPreimage wCred)) wCred.proof
            wDoc.publicKeys
      ∧ (VerifyClaim "r" wHashOf wFetch wDec wKeccak wVerify wCred
            = .error .notVerified
          ↔ ∀ pk ∈ wDoc.publicKeys,
              pk.type = "Secp256k1VerificationKey2018" →
                wVerify (hex2Bytes (trim0x pk.publicKeyHex))
                  (wKeccak (verifyPreimage wCred))
                  (hex2Bytes wProof.proofValue) = false)
      ∧ ((∃ r, VerifyClaim "r" wHashOf wFetch wDec wKeccak wVerify wCred
              = .ok r)
          ↔ ∃ pk ∈ wDoc.publicKeys,
              pk.type = "Secp256k1VerificationKey2018"
                ∧ wVerify (hex2Bytes (trim0x pk.publicKeyHex))
                    (wKeccak (verifyPreimage wCred))
                    (hex2Bytes wProof.proofValue) = true)) :=
  ⟨⟨by decide, rfl⟩,
    claim_verifier_key_selection "r" wHashOf wFetch wDec wKeccak wVerify
      wCred wProof (didKey32 ⟨"go".data, "i".data, []⟩) "H" wDoc
      (by decide) rfl⟩

/-! ## C3: tampering with the credential subject -/

/-- Append is cancellative on strings: equal strings with equal fixed
surroundings have equal middles. -/
theorem string_append_inj (a b x y : String)
    (h : a ++ (x ++ b) = a ++ (y ++ b)) : x = y := by
  have hd := congrArg String.data h
  simp only [String.data_append] at hd
  have h1 := List.append_cancel_left hd
  have h2 := List.append_cancel_right h1
  exact congrArg String.mk h2

/-- The canonical credential bytes split into a prefix depending only on
the metadata, the subject serialization, and a fixed suffix. -/
theorem encodeVC_split (cid : String) (ctys : List String) (ciss : String)
    (cdate : Option Nat) (m : List (String × Json)) :
    encodeVC ⟨cid, ctys, ciss, cdate, some m, none⟩
      = ("\x7b\"id\":" ++ encStr cid ++ ",\"type\":["
          ++ commaJoin (ctys.map encStr) ++ "]" ++ ",\"issuer\":"
          ++ encStr ciss ++ ",\"issuanceDate\":" ++ encodeTime cdate
          ++ ",\"credentialSubject\":")
        ++ (encodeSubject m
          ++ (",\"proof\":" ++ encodeProof none ++ "\x7d\n")) := by
  simp [encodeVC, String.append_assoc]

/-- Credentials differing only in the subject have equal canonical bytes
only if the subject serializations agree. -/
theorem encodeVC_subject_inj (cid : String) (ctys : List String)
    (ciss : String) (cdate : Option Nat) (m1 m2 : List (String × Json))
    (h : encodeVC ⟨cid, ctys, ciss, cdate, some m1, none⟩
      = encodeVC ⟨cid, ctys, ciss, cdate, some m2, none⟩) :
    encodeSubject m1 = encodeSubject m2 := by
  rw [encodeVC_split, encodeVC_split] at h
  exact string_append_inj _ _ _ _ h

/-- C3: mutating the credentialSubject of a credential issued by
`SignClaim` (any change to its canonical bytes) makes `VerifyClaim` fail
with VerificationFailure, under the standard cryptographic assumptions:
collision resistance of Keccak-256 on the two pre-images and
unforgeability of the signature (it verifies only the digest that was
signed). -/
theorem claim_tamper_detection (keccak : String → List Nat)
    (sign : List Nat → List Nat)
    (v : List Nat → List Nat → List Nat → Bool) (reg : String)
    (hashOf : List Nat → String) (fetch : String → Option String)
    (dec : String → Option Document) (id typ issuerID subjectID : String)
    (subject subj' : List (String × Json)) (nowNs : Nat) (k : List Nat)
    (hsh : String) (doc : Document)
    (hmut : encodeSubject subj'
      ≠ encodeSubject (mapSet subject "id" (.str subjectID)))
    (hres : readDIDDocument reg issuerID hashOf fetch dec
      = .ok (k, hsh, doc))
    (hcr : keccak (verifyPreimage { signClaimCred keccak sign id typ
          issuerID subjectID subject nowNs with
          credentialSubject := some subj' })
        = keccak (signPreimage id typ issuerID subjectID subject nowNs) →
      verifyPreimage { signClaimCred keccak sign id typ issuerID subjectID
          subject nowNs with credentialSubject := some subj' }
        = signPreimage id typ issuerID subjectID subject nowNs)
    (hunf : ∀ pkb dg, v pkb dg (hex2Bytes (bytes2Hex ((sign (keccak
          (signPreimage id typ issuerID subjectID subject
            nowNs))).dropLast))) = true →
      dg = keccak (signPreimage id typ issuerID subjectID subject nowNs)) :
    VerifyClaim reg hashOf fetch dec keccak v
      { signClaimCred keccak sign id typ issuerID subjectID subject nowNs
        with credentialSubject := some subj' }
      = .error .notVerified := by
  have hres' : readDIDDocument reg
      ({ signClaimCred keccak sign id typ issuerID subjectID subject nowNs
        with credentialSubject := some subj' }
        : VerifiableCredential).issuer hashOf fetch dec
      = .ok (k, hsh, doc) := hres
  rw [VerifyClaim_unfold reg hashOf fetch dec keccak v _ k hsh doc hres']
  have hp : ({ signClaimCred keccak sign id typ issuerID subjectID subject
      nowNs with credentialSubject := some subj' }
      : VerifiableCredential).proof
      = some { type := "Secp256k1VerificationKey2018"
               created := some (truncSec nowNs)
               proofValue := bytes2Hex ((sign (keccak (signPreimage id typ
                 issuerID subjectID subject nowNs))).dropLast) } := rfl
  rw [hp, verifyLoop_some]
  have hany : doc.publicKeys.any (fun pk =>
      decide (pk.type = "Secp256k1VerificationKey2018")
        && v (hex2Bytes (trim0x pk.publicKeyHex))
          (keccak (verifyPreimage { signClaimCred keccak sign id typ
            issuerID subjectID subject nowNs with
            credentialSubject := some subj' }))
          (hex2Bytes (bytes2Hex ((sign (keccak (signPreimage id typ
            issuerID subjectID subject nowNs))).dropLast)))) = false := by
    rw [List.any_eq_false]
    intro pk _ hband
    rw [Bool.and_eq_true] at hband
    have hdg := hunf _ _ hband.2
    have hpre := hcr hdg
    have heq : encodeSubject subj'
        = encodeSubject (mapSet subject "id" (.str subjectID)) :=
      encodeVC_subject_inj id [typ] issuerID (some (truncSec nowNs))
        subj' (mapSet subject "id" (.str subjectID)) hpre
    exact hmut heq
  rw [hany]

/-- Signature stub for the tamper witness. -/
def wSign : List Nat → List Nat := fun _ => List.replicate 65 7

/-- Digest stub for the tamper witness: collision-free on the two
pre-images involved. -/
def wKeccakTamper : String → List Nat := fun s =>
  if s = signPreimage "u" "T" "did:go:i" "did:go:s" [("age", Json.num 21)] 0
  then [0] else [1]

/-- Signature check stub rejecting everything, as unforgeability demands
for a tampered digest with these stubs. -/
def wVerifyNone : List Nat → List Nat → List Nat → Bool := fun _ _ _ => false

/-- The issued-then-tampered credential of the witness: the subject claim
`age` changed from 21 to 22 after issuance. -/
def wTampered : VerifiableCredential :=
  { signClaimCred wKeccakTamper wSign "u" "T" "did:go:i" "did:go:s"
      [("age", Json.num 21)] 0 with
    credentialSubject := some [("age", Json.num 22)] }

/-- Witness for C3 at the tampered fixture credential. -/
theorem claim_tamper_detection_witness :
    (encodeSubject [("age", Json.num 22)]
        ≠ encodeSubject (mapSet [("age", Json.num 21)] "id"
          (.str "did:go:s"))
      ∧ readDIDDocument "r" "did:go:i" wHashOf wFetch wDec
        = .ok (didKey32 ⟨"go".data, "i".data, []⟩, "H", wDoc)
      ∧ (wKeccakTamper (verifyPreimage wTampered)
          = wKeccakTamper (signPreimage "u" "T" "did:go:i" "did:go:s"
            [("age", Json.num 21)] 0) →
        verifyPreimage wTampered
          = signPreimage "u" "T" "did:go:i" "did:go:s"
            [("age", Json.num 21)] 0)
      ∧ (∀ pkb dg, wVerifyNone pkb dg (hex2Bytes (bytes2Hex ((wSign
            (wKeccakTamper (signPreimage "u" "T" "did:go:i" "did:go:s"
              [("age", Json.num 21)] 0))).dropLast))) = true →
          dg = wKeccakTamper (signPreimage "u" "T" "did:go:i" "did:go:s"
            [("age", Json.num 21)] 0)))
    ∧ VerifyClaim "r" wHashOf wFetch wDec wKeccakTamper wVerifyNone
        wTampered
      = .error .notVerified :=
  ⟨⟨by decide, rfl, fun hx => absurd hx (by decide),
      fun _ _ hm => Bool.noConfusion hm⟩,
    claim_tamper_detection wKeccakTamper wSign wVerifyNone "r" wHashOf
      wFetch wDec "u" "T" "did:go:i" "did:go:s" [("age", Json.num 21)]
      [("age", Json.num 22)] 0 (didKey32 ⟨"go".data, "i".data, []⟩) "H"
      wDoc (by decide) rfl (fun hx => absurd hx (by decide))
      (fun _ _ hm => Bool.noConfusion hm)⟩
